import Mathlib

/-!
Verification of the reading-feedback app (`src/app.py`).

The file shallowly embeds the pieces of the program the specification talks
about:

* the level-to-prompt mapping `LEVEL_PROMPT` and the feedback template
  (`fbPrompt`), from app.py lines 31-45;
* Python `str.strip` (`pyStrip`), used on user input and model responses;
* the JSON parsing step of `get_feedback` (a faithful executable JSON
  reader `parseJson` standing for Python's `json.loads`, plus the
  try/except fallback, app.py lines 54-61);
* the CSV log store (pandas `to_csv` minimal quoting and `read_csv` cell
  splitting, `datetime.date.isoformat`, app.py lines 97-120);
* the Streamlit interaction loop as a step function on an explicit
  application state (app.py lines 79-120).

Machine integers do not occur; JSON numbers are modelled as `Rat`,
exactly the values Python's parser produces for integer and
decimal-exponent literals.  The pandas reader is modelled with its
default post-tokenization conversions: the default NA-sentinel list
(`''`, `'NA'`, `'None'`, ... become NaN, quoted or not), and per-column
dtype inference (integer columns within the 64-bit ranges load as
integers, boolean-word columns as booleans, numeric-shaped columns as
floats, everything else as verbatim strings), with cell conversion
tolerating the surrounding blanks the C tokenizer skips.  Values of
float-typed cells are kept as their raw literal text: no theorem below
inspects a float cell, so no floating-point semantics is modelled.  One
known divergence from CPython, which no theorem touches: `\uXXXX`
escapes outside the scalar range decode to the null character instead of
a lone surrogate.
-/

namespace ReadingApp

/-! ### Characters and digits -/

/-- The double-quote character. -/
def dquote : Char := Char.ofNat 34

/-- Left brace. -/
def lbrace : Char := Char.ofNat 123

/-- Right brace. -/
def rbrace : Char := Char.ofNat 125

/-- Left bracket. -/
def lbrack : Char := Char.ofNat 91

/-- Right bracket. -/
def rbrack : Char := Char.ofNat 93

/-- Decimal digit character for `k % 10`-style arguments. -/
def digitChar (k : Nat) : Char :=
  match k with
  | 0 => '0' | 1 => '1' | 2 => '2' | 3 => '3' | 4 => '4'
  | 5 => '5' | 6 => '6' | 7 => '7' | 8 => '8' | 9 => '9'
  | _ => '*'

/-- Numeric value of a decimal digit character. -/
def digitVal (c : Char) : Nat := c.toNat - 48

/-- Value of a big-endian list of decimal digit characters. -/
def digitsVal (l : List Char) : Nat :=
  l.foldl (fun a c => a * 10 + digitVal c) 0

/-- Value of a hexadecimal digit character, if it is one. -/
def hexVal (c : Char) : Option Nat :=
  if c.isDigit then some (c.toNat - 48)
  else if 'a' ≤ c ∧ c ≤ 'f' then some (c.toNat - 87)
  else if 'A' ≤ c ∧ c ≤ 'F' then some (c.toNat - 55)
  else none

/-- Decimal digits of `n`, most significant first; `fuel` bounds recursion
depth and any `fuel > n` is enough. -/
def natDigitsFuel : Nat → Nat → List Char
  | 0, _ => []
  | f + 1, n => if n < 10 then [digitChar n] else natDigitsFuel f (n / 10) ++ [digitChar (n % 10)]

/-- Decimal digits of `n`, as Python's `str` prints a nonnegative int. -/
def natDigits (n : Nat) : List Char := natDigitsFuel (n + 1) n

/-- Python `str(int)`: optional minus sign followed by decimal digits. -/
def intChars (i : Int) : List Char :=
  if i < 0 then '-' :: natDigits i.natAbs else natDigits i.natAbs

/-! ### Python `str.strip` -/

/-- Unicode whitespace as Python's `str.strip` removes it. -/
def isPySpace (c : Char) : Bool :=
  let n := c.toNat
  n = 32 || (9 ≤ n && n ≤ 13) || (28 ≤ n && n ≤ 31) || n = 133 || n = 160 ||
    n = 5760 || (8192 ≤ n && n ≤ 8202) || n = 8232 || n = 8233 || n = 8239 ||
    n = 8287 || n = 12288

/-- Python `str.strip()`: drop leading and trailing whitespace. -/
def pyStrip (s : String) : String :=
  ⟨((s.data.dropWhile isPySpace).reverse.dropWhile isPySpace).reverse⟩

/-! ### JSON values and `json.loads` -/

/-- JSON values as Python's `json.loads` produces them (numbers as exact
rationals, objects as key/value lists in source order with duplicate keys
resolved at lookup time, last occurrence winning, as in a Python dict). -/
inductive Json where
  | null : Json
  | bool : Bool → Json
  | num : Rat → Json
  | str : String → Json
  | arr : List Json → Json
  | obj : List (String × Json) → Json

/-- JSON whitespace (space, tab, newline, carriage return). -/
def isJsonWs (c : Char) : Bool :=
  c = ' ' || c = Char.ofNat 9 || c = Char.ofNat 10 || c = Char.ofNat 13

/-- Skip JSON whitespace. -/
def skipWs (cs : List Char) : List Char := cs.dropWhile isJsonWs

/-- Parse the body of a JSON string after the opening quote: returns the
decoded characters and the input after the closing quote.  Escapes follow
the JSON grammar; unescaped control characters are rejected as by Python's
strict decoder. -/
def parseJString : List Char → Option (List Char × List Char)
  | [] => none
  | c :: t =>
    if c = dquote then some ([], t)
    else if c = '\\' then
      match t with
      | [] => none
      | e :: t2 =>
        if e = dquote then (parseJString t2).map (fun p => (dquote :: p.1, p.2))
        else if e = '\\' then (parseJString t2).map (fun p => ('\\' :: p.1, p.2))
        else if e = '/' then (parseJString t2).map (fun p => ('/' :: p.1, p.2))
        else if e = 'b' then (parseJString t2).map (fun p => (Char.ofNat 8 :: p.1, p.2))
        else if e = 'f' then (parseJString t2).map (fun p => (Char.ofNat 12 :: p.1, p.2))
        else if e = 'n' then (parseJString t2).map (fun p => (Char.ofNat 10 :: p.1, p.2))
        else if e = 'r' then (parseJString t2).map (fun p => (Char.ofNat 13 :: p.1, p.2))
        else if e = 't' then (parseJString t2).map (fun p => (Char.ofNat 9 :: p.1, p.2))
        else if e = 'u' then
          match t2 with
          | h1 :: h2 :: h3 :: h4 :: t3 =>
            match hexVal h1, hexVal h2, hexVal h3, hexVal h4 with
            | some v1, some v2, some v3, some v4 =>
              (parseJString t3).map
                (fun p => (Char.ofNat (v1 * 4096 + v2 * 256 + v3 * 16 + v4) :: p.1, p.2))
            | _, _, _, _ => none
          | _ => none
        else none
    else if c.toNat < 32 then none
    else (parseJString t).map (fun p => (c :: p.1, p.2))

/-- Combine the parts of a JSON number literal into its rational value:
`± (ip . fracDigits) · 10^(±e)`. -/
def ratOfParts (neg : Bool) (ip : Nat) (fracDigits : List Char) (expNeg : Bool) (e : Nat) : Rat :=
  let fl := fracDigits.length
  let mant : Int := (ip * 10 ^ fl + digitsVal fracDigits : Nat)
  let signed : Int := if neg then -mant else mant
  if expNeg then mkRat signed (10 ^ fl * 10 ^ e) else mkRat (signed * 10 ^ e) (10 ^ fl)

/-- Parse a JSON number literal (sign, integer part without leading zeros,
optional fraction, optional exponent). -/
def parseNumber (cs : List Char) : Option (Rat × List Char) :=
  let p := match cs with
    | c :: t => if c = '-' then (true, t) else (false, cs)
    | [] => (false, cs)
  match p.2 with
  | [] => none
  | c :: _ =>
    if c.isDigit then
      let ds := p.2.takeWhile Char.isDigit
      let cs2 := p.2.dropWhile Char.isDigit
      if c = '0' ∧ 1 < ds.length then none
      else
        let fracRes : Option (List Char × List Char) :=
          match cs2 with
          | q :: t =>
            if q = '.' then
              let fs := t.takeWhile Char.isDigit
              if fs = [] then none else some (fs, t.dropWhile Char.isDigit)
            else some ([], cs2)
          | [] => some ([], cs2)
        match fracRes with
        | none => none
        | some (fs, cs3) =>
          let expRes : Option (Bool × Nat × List Char) :=
            match cs3 with
            | q :: t =>
              if q = 'e' ∨ q = 'E' then
                let r := match t with
                  | s :: t2 =>
                    if s = '-' then (true, t2) else if s = '+' then (false, t2) else (false, t)
                  | [] => (false, t)
                let es := r.2.takeWhile Char.isDigit
                if es = [] then none
                else some (r.1, digitsVal es, r.2.dropWhile Char.isDigit)
              else some (false, 0, cs3)
            | [] => some (false, 0, cs3)
          match expRes with
          | none => none
          | some (en, ev, cs4) => some (ratOfParts p.1 (digitsVal ds) fs en ev, cs4)
    else none

/-- The three mutually recursive JSON parsers (value, object members after
the first key is expected, array elements), realized as one structural
recursion on a fuel bound so that every use reduces inside the kernel.
Each component returns the parsed result and the unconsumed input; the
member and element parsers consume through the closing brace/bracket. -/
def jsonParsers : Nat →
    (List Char → Option (Json × List Char)) ×
    (List Char → Option (List (String × Json) × List Char)) ×
    (List Char → Option (List Json × List Char))
  | 0 => (fun _ => none, fun _ => none, fun _ => none)
  | f + 1 =>
    let pv := (jsonParsers f).1
    let pm := (jsonParsers f).2.1
    let pe := (jsonParsers f).2.2
    ( fun cs =>
        match skipWs cs with
        | [] => none
        | c :: rest =>
          if c = dquote then
            match parseJString rest with
            | some (s, r) => some (Json.str ⟨s⟩, r)
            | none => none
          else if c = lbrace then
            match skipWs rest with
            | d :: r2 =>
              if d = rbrace then some (Json.obj [], r2)
              else
                match pm (skipWs rest) with
                | some (ms, r3) => some (Json.obj ms, r3)
                | none => none
            | [] => none
          else if c = lbrack then
            match skipWs rest with
            | d :: r2 =>
              if d = rbrack then some (Json.arr [], r2)
              else
                match pe (skipWs rest) with
                | some (vs, r3) => some (Json.arr vs, r3)
                | none => none
            | [] => none
          else if c = 't' then
            match rest with
            | 'r' :: 'u' :: 'e' :: r => some (Json.bool true, r)
            | _ => none
          else if c = 'f' then
            match rest with
            | 'a' :: 'l' :: 's' :: 'e' :: r => some (Json.bool false, r)
            | _ => none
          else if c = 'n' then
            match rest with
            | 'u' :: 'l' :: 'l' :: r => some (Json.null, r)
            | _ => none
          else
            match parseNumber (c :: rest) with
            | some (q, r) => some (Json.num q, r)
            | none => none
      ,
      fun cs =>
        match skipWs cs with
        | c :: rest =>
          if c = dquote then
            match parseJString rest with
            | some (k, r1) =>
              match skipWs r1 with
              | d :: r2 =>
                if d = ':' then
                  match pv r2 with
                  | some (v, r3) =>
                    match skipWs r3 with
                    | e :: r4 =>
                      if e = ',' then
                        match pm r4 with
                        | some (ms, r5) => some ((⟨k⟩, v) :: ms, r5)
                        | none => none
                      else if e = rbrace then some ([(⟨k⟩, v)], r4)
                      else none
                    | [] => none
                  | none => none
                else none
              | [] => none
            | none => none
          else none
        | [] => none
      ,
      fun cs =>
        match pv cs with
        | some (v, r1) =>
          match skipWs r1 with
          | e :: r2 =>
            if e = ',' then
              match pe r2 with
              | some (vs, r3) => some (v :: vs, r3)
              | none => none
            else if e = rbrack then some ([v], r2)
            else none
          | [] => none
        | none => none )

/-- Python `json.loads`: parse one JSON value, allowing surrounding
whitespace, requiring the whole input to be consumed. -/
def parseJson (s : String) : Option Json :=
  match (jsonParsers (s.data.length + 1)).1 s.data with
  | some (v, rest) => if skipWs rest = [] then some v else none
  | none => none

/-! ### Prompt builder (app.py lines 31-45) -/

/-- The level-to-instruction mapping `LEVEL_PROMPT` (app.py lines 31-35);
indexing a Python dict with a missing key raises `KeyError`, modelled as
`none`. -/
def LEVEL_PROMPT (level : String) : Option String :=
  if level = "初級" then some "日本の小学高学年でも読める 5,000 字程度の物語を日本語で書いて。"
  else if level = "中級" then some "中学生向けに 5,000 字前後の冒険小説を日本語で書いて。"
  else if level = "上級" then some "高校生〜一般向け 5,000 字超の文学的短編小説を日本語で書いて。"
  else none

/-- Text of `FB_TEMPLATE` before the `text` placeholder, with Python's
doubled braces already collapsed as `str.format` leaves them. -/
def fbBefore : String :=
  "\nあなたは中学生向け読書感想文の指導者です。\n以下の感想文を評価し、次の JSON 形式だけを出力してください。説明は不要。\n\n\x7b\"よかった点\": \"〜\", \"改善点\": \"〜\", \"スコア\": 80\x7d\n\n感想文:\n"

/-- Text of `FB_TEMPLATE` after the `text` placeholder. -/
def fbAfter : String := "\n"

/-- `FB_TEMPLATE.format(text=text)` (app.py line 55): the template with the
reflection text interpolated; `str.format` never rewrites the argument. -/
def fbPrompt (text : String) : String := fbBefore ++ text ++ fbAfter

/-! ### The feedback response parser (app.py lines 54-61) -/

/-- The fixed fallback record returned when `json.loads` raises
`JSONDecodeError`. -/
def fallbackJson : Json :=
  Json.obj [("よかった点", Json.str "解析失敗"), ("改善点", Json.str "形式を確認"),
    ("スコア", Json.num 0)]

/-- The parsing step of `get_feedback` (app.py lines 58-61): `json.loads`
on the stripped response text, with the fixed fallback substituted exactly
when decoding fails. -/
def get_feedback_parse (resp : String) : Json :=
  match parseJson resp with
  | some v => v
  | none => fallbackJson

/-- Lookup in an association list with Python-dict semantics: the last
occurrence of a duplicated key wins. -/
def findField : List (String × Json) → String → Option Json
  | [], _ => none
  | (k', v) :: rest, k =>
    match findField rest k with
    | some r => some r
    | none => if k' = k then some v else none

/-- Python subscription `fb[k]`: succeeds only on a dict that has the key;
on any other value (or a missing key) the access raises, modelled as
`none`. -/
def getField (j : Json) (k : String) : Option Json :=
  match j with
  | Json.obj fields => findField fields k
  | _ => none

/-! ### Dates and the CSV log store (app.py lines 97-120) -/

/-- A Python `datetime.date`: year in `1..9999`, month in `1..12`, day in
`1..31` (the constructor enforces these bounds). -/
structure PyDate where
  year : Nat
  month : Nat
  day : Nat
deriving DecidableEq

/-- Exactly four digits, zero padded (`%04d` for arguments below 10000). -/
def pad4 (n : Nat) : List Char :=
  [digitChar (n / 1000 % 10), digitChar (n / 100 % 10), digitChar (n / 10 % 10),
    digitChar (n % 10)]

/-- Exactly two digits, zero padded (`%02d` for arguments below 100). -/
def pad2 (n : Nat) : List Char :=
  [digitChar (n / 10 % 10), digitChar (n % 10)]

/-- `datetime.date.isoformat()`: `YYYY-MM-DD`. -/
def isoChars (d : PyDate) : List Char :=
  pad4 d.year ++ '-' :: (pad2 d.month ++ '-' :: pad2 d.day)

/-- `isoformat` as a string, as stored in the log. -/
def isoString (d : PyDate) : String := ⟨isoChars d⟩

/-- Does the text have the ISO 8601 calendar-date shape `YYYY-MM-DD`? -/
def isIso8601 (cs : List Char) : Bool :=
  match cs with
  | [y1, y2, y3, y4, s1, m1, m2, s2, d1, d2] =>
    y1.isDigit && y2.isDigit && y3.isDigit && y4.isDigit && s1 = '-' &&
      m1.isDigit && m2.isDigit && s2 = '-' && d1.isDigit && d2.isDigit
  | _ => false

/-- One persisted feedback record as the data model defines it. -/
structure FeedbackRecord where
  date : PyDate
  level : String
  model : String
  text : String
  score : Int
deriving DecidableEq

/-- Does a cell need quoting under pandas' minimal-quoting `to_csv`
(delimiter, quote char, or line-terminator characters present)? -/
def needsQuote (c : Char) : Bool :=
  c = ',' || c = dquote || c = Char.ofNat 10 || c = Char.ofNat 13

/-- Double every quote character, the CSV escape. -/
def escapeQuotes : List Char → List Char
  | [] => []
  | c :: t => if c = dquote then dquote :: dquote :: escapeQuotes t else c :: escapeQuotes t

/-- Encode one CSV cell: quote and escape only when needed. -/
def encodeCell (s : List Char) : List Char :=
  if s.any needsQuote then dquote :: (escapeQuotes s ++ [dquote]) else s

/-- Encode one CSV line from its cells. -/
def encodeLine : List (List Char) → List Char
  | [] => []
  | [c] => encodeCell c
  | c :: rest => encodeCell c ++ ',' :: encodeLine rest

/-- Read a quoted CSV cell body after the opening quote: a doubled quote
is a literal quote, a single one closes the cell. -/
def parseQuotedBody : List Char → Option (List Char × List Char)
  | [] => none
  | c :: t =>
    if c = dquote then
      match t with
      | [] => some ([], [])
      | q :: t2 =>
        if q = dquote then (parseQuotedBody t2).map (fun p => (dquote :: p.1, p.2))
        else some ([], q :: t2)
    else (parseQuotedBody t).map (fun p => (c :: p.1, p.2))

/-- Is a character anything but the cell delimiter? -/
def notComma (c : Char) : Bool := ¬ c = ','

/-- Split one CSV line into cells, honouring quoting; `fuel` bounds the
number of cells and any `fuel >` the line length is enough. -/
def parseCellsFuel : Nat → List Char → Option (List (List Char))
  | 0, _ => none
  | _ + 1, [] => some [[]]
  | f + 1, c :: t =>
    if c = dquote then
      match parseQuotedBody t with
      | none => none
      | some (body, rest) =>
        match rest with
        | [] => some [body]
        | r :: rt => if r = ',' then (parseCellsFuel f rt).map (body :: ·) else none
    else
      let cell := (c :: t).takeWhile notComma
      match (c :: t).dropWhile notComma with
      | [] => some [cell]
      | _ :: rt => (parseCellsFuel f rt).map (cell :: ·)

/-- Split one CSV line into cells. -/
def parseCells (cs : List Char) : Option (List (List Char)) :=
  parseCellsFuel (cs.length + 1) cs

/-- The header line `to_csv` writes (app.py line 101). -/
def headerLine : List Char := "日付,レベル,モデル,感想,スコア".data

/-- The five serialized cells of one feedback record, the way
`df.loc[len(df)] = [...]` renders the row values as text. -/
def recCells (r : FeedbackRecord) : List (List Char) :=
  [isoChars r.date, r.level.data, r.model.data, r.text.data, intChars r.score]

/-- Serialize one feedback record to its CSV line, the way
`df.loc[len(df)] = [...]` followed by `to_csv` renders it. -/
def encodeRecordLine (r : FeedbackRecord) : List Char :=
  encodeLine (recCells r)

/-- `append` of the log store: read-modify-rewrite of the whole CSV file
(app.py lines 97-120).  The file is its list of lines; an empty list is a
missing file, in which case the header is created first. -/
def appendStore (file : List (List Char)) (r : FeedbackRecord) : List (List Char) :=
  match file with
  | [] => [headerLine, encodeRecordLine r]
  | _ => file ++ [encodeRecordLine r]

/-! #### The `pd.read_csv` value model

`pd.read_csv` at app.py line 99 runs with all defaults: after splitting a
line into cells it applies the default NA-sentinel conversion
(`keep_default_na=True`, also inside quoted cells) and per-column dtype
inference — a column whose every cell is a 64-bit-range integer loads as
integers, a column of boolean words as booleans, any other all-numeric
column as float64, everything else as an object column of verbatim
strings with the NA sentinels replaced by NaN.  Cell conversion tolerates
the surrounding spaces/tabs the C tokenizer skips. -/

/-- One value of a loaded DataFrame cell.  Float cells keep their raw
literal text: no theorem inspects one, so IEEE semantics is not
modelled. -/
inductive PdCell where
  | nan : PdCell
  | int : Int → PdCell
  | bool : Bool → PdCell
  | float : String → PdCell
  | str : String → PdCell
deriving DecidableEq

/-- The pandas default NA sentinel strings (`io.parsers`,
`STR_NA_VALUES`). -/
def naSentinels : List (List Char) :=
  [[], "#N/A".data, "#N/A N/A".data, "#NA".data, "-1.#IND".data, "-1.#QNAN".data,
    "-NaN".data, "-nan".data, "1.#IND".data, "1.#QNAN".data, "<NA>".data, "N/A".data,
    "NA".data, "NULL".data, "NaN".data, "None".data, "n/a".data, "nan".data, "null".data]

/-- The blanks the tokenizer's numeric conversion skips around a cell. -/
def isSpaceTab (c : Char) : Bool := c = ' ' || c = Char.ofNat 9

/-- Drop leading and trailing spaces/tabs of a cell before conversion. -/
def trimSpaces (cs : List Char) : List Char :=
  ((cs.dropWhile isSpaceTab).reverse.dropWhile isSpaceTab).reverse

/-- Does the cell convert as an integer (optional sign, decimal digits)? -/
def isIntCell (cs : List Char) : Bool :=
  match trimSpaces cs with
  | [] => false
  | c :: rest =>
    if c = '-' ∨ c = '+' then decide (rest ≠ []) && rest.all Char.isDigit
    else (c :: rest).all Char.isDigit

/-- The integer value of an integer-shaped cell. -/
def pdIntVal (cs : List Char) : Int :=
  match trimSpaces cs with
  | [] => 0
  | c :: rest =>
    if c = '-' then -(digitsVal rest : Int)
    else if c = '+' then (digitsVal rest : Int)
    else (digitsVal (c :: rest) : Int)

/-- Exponent suffix of a float literal: empty, or `e`/`E`, an optional
sign, and digits. -/
def isExpPart : List Char → Bool
  | [] => true
  | e :: t =>
    (e = 'e' || e = 'E') &&
      match t with
      | [] => false
      | s :: t2 =>
        if s = '-' ∨ s = '+' then decide (t2 ≠ []) && t2.all Char.isDigit
        else t.all Char.isDigit

/-- Float literal after the optional sign: digits with an optional
fraction, or a bare fraction, with an optional exponent. -/
def isFloatBody (cs : List Char) : Bool :=
  let ds := cs.takeWhile Char.isDigit
  match cs.dropWhile Char.isDigit with
  | [] => decide (ds ≠ [])
  | '.' :: t =>
    (decide (ds ≠ []) || decide (t.takeWhile Char.isDigit ≠ [])) &&
      isExpPart (t.dropWhile Char.isDigit)
  | rest => decide (ds ≠ []) && isExpPart rest

/-- Does the cell convert as a float (numeric literal or an infinity
word)? -/
def isFloatCell (cs : List Char) : Bool :=
  match trimSpaces cs with
  | [] => false
  | c :: rest =>
    let body := if c = '-' ∨ c = '+' then rest else c :: rest
    isFloatBody body || decide (body.map Char.toLower = "inf".data) ||
      decide (body.map Char.toLower = "infinity".data)

/-- Does the cell convert as a boolean word? -/
def isBoolCell (cs : List Char) : Bool :=
  decide (trimSpaces cs ∈
    ["True".data, "TRUE".data, "true".data, "False".data, "FALSE".data, "false".data])

/-- The boolean value of a boolean-word cell. -/
def pdBoolVal (cs : List Char) : Bool :=
  decide (trimSpaces cs ∈ ["True".data, "TRUE".data, "true".data])

/-- Any cell shape the reader converts away from a verbatim string. -/
def convertsCell (cs : List Char) : Bool :=
  isIntCell cs || isFloatCell cs || isBoolCell cs

/-- A string whose serialized cell the default reader returns verbatim:
not an NA sentinel and not integer/float/boolean shaped. -/
def plainCell (s : String) : Prop :=
  s.data ∉ naSentinels ∧ convertsCell s.data = false

/-- Convert one column of cell texts to its loaded values, following the
reader's dtype inference.  Integer columns must fit int64 (or, all
nonnegative, uint64) and admit no NA, else they fall through to
float64. -/
def toCellValues (col : List (List Char)) : List PdCell :=
  if col.all (fun cs => !decide (cs ∈ naSentinels) && isIntCell cs) &&
      (col.all (fun cs => decide (-(2 ^ 63) ≤ pdIntVal cs) && decide (pdIntVal cs < 2 ^ 63)) ||
        col.all (fun cs => decide (0 ≤ pdIntVal cs) && decide (pdIntVal cs < 2 ^ 64))) then
    col.map (fun cs => PdCell.int (pdIntVal cs))
  else if col.all (fun cs => decide (cs ∈ naSentinels) || isBoolCell cs) then
    col.map (fun cs => if cs ∈ naSentinels then PdCell.nan else PdCell.bool (pdBoolVal cs))
  else if col.all (fun cs => decide (cs ∈ naSentinels) || isIntCell cs || isFloatCell cs) then
    col.map (fun cs => if cs ∈ naSentinels then PdCell.nan else PdCell.float ⟨cs⟩)
  else
    col.map (fun cs => if cs ∈ naSentinels then PdCell.nan else PdCell.str ⟨cs⟩)

/-- Split every data line into its cells, failing if any line fails. -/
def tokenizeLines : List (List Char) → Option (List (List (List Char)))
  | [] => some []
  | l :: rest =>
    match parseCells l, tokenizeLines rest with
    | some cells, some rows => some (cells :: rows)
    | _, _ => none

/-- Tokenize the data lines of the file: split each into cells and
require the uniform five-column shape (the reader errors otherwise). -/
def readCells (file : List (List Char)) : Option (List (List (List Char))) :=
  match tokenizeLines (file.drop 1) with
  | none => none
  | some rows => if rows.all (fun row => row.length = 5) then some rows else none

/-- Column `i` of the tokenized rows. -/
def colN (i : Nat) (rows : List (List (List Char))) : List (List Char) :=
  rows.map (fun row => row.getD i [])

/-- Rebuild rows from the five converted columns. -/
def zip5 {α : Type} : List α → List α → List α → List α → List α → List (List α)
  | a :: as, b :: bs, c :: cs, d :: ds, e :: es =>
    [a, b, c, d, e] :: zip5 as bs cs ds es
  | _, _, _, _, _ => []

/-- `load` of the log store: `pd.read_csv` skips the header, tokenizes
every data line, converts each of the five columns, and yields the rows
of loaded values. -/
def loadStore (file : List (List Char)) : Option (List (List PdCell)) :=
  match readCells file with
  | none => none
  | some rows =>
    some (zip5 (toCellValues (colN 0 rows)) (toCellValues (colN 1 rows))
      (toCellValues (colN 2 rows)) (toCellValues (colN 3 rows))
      (toCellValues (colN 4 rows)))

/-- The CSV file holding a given sequence of already-logged records. -/
def mkFile : List FeedbackRecord → List (List Char)
  | [] => []
  | ps => headerLine :: ps.map encodeRecordLine

/-! ### Application state machine (app.py lines 79-120)

One interactive session: the generated passage held in
`st.session_state`, the `st.cache_data` memo table of `generate_passage`,
and the rows of the CSV log.  Each user action carries the response the
hosted model would give if it were consulted (`Except Unit String`, with
`.error` standing for a network/service failure); a cache hit never
consults it. -/

/-- One appended log row as `df.loc[len(df)] = [...]` builds it
(app.py lines 113-119): the ISO date string, level, model, the raw user
input, and whatever JSON value `fb["スコア"]` held. -/
structure LogRow where
  date : String
  level : String
  model : String
  text : String
  score : Json

/-- The mutable state of one session. -/
structure AppState where
  passage : String
  cache : List (String × String × String)
  log : List LogRow

/-- Observable effects of one user action. -/
inductive UIEvent where
  | modelCall (prompt model : String)
  | warning
  | modelError
  | keyError

/-- A user interaction: pressing the generate button or the feedback
button with the current sidebar/input contents. -/
inductive Action where
  | generate (level model : String) (resp : Except Unit String)
  | feedback (input level model : String) (resp : Except Unit String) (today : PyDate)

/-- `st.cache_data` lookup for `generate_passage`, keyed on the argument
pair `(level, model_name)`. -/
def lookupCache : List (String × String × String) → String → String → Option String
  | [], _, _ => none
  | (l', m', v) :: rest, l, m => if l' = l ∧ m' = m then some v else lookupCache rest l m

/-- One user interaction (app.py lines 83-85 and 103-120).

Generate button: on a cache hit `generate_passage` returns the memoized
passage without touching the model; on a miss, `LEVEL_PROMPT[level]` is
evaluated (a `KeyError` aborts before any call), then the model is called
once — an error propagates leaving every state component unchanged, a
success strips the text, stores it in the cache and in
`st.session_state.passage`.

Feedback button: disabled while no passage exists; an all-whitespace input
only raises the warning; otherwise `get_feedback` makes one model call —
an error propagates with no state change — and its parsed result has its
three fields subscripted (`fb["スコア"]` first), any failure aborting
before the row is appended. -/
def step (s : AppState) : Action → AppState × List UIEvent
  | Action.generate level model resp =>
    match lookupCache s.cache level model with
    | some p => ({ s with passage := p }, [])
    | none =>
      match LEVEL_PROMPT level with
      | none => (s, [UIEvent.keyError])
      | some pr =>
        match resp with
        | Except.error _ => (s, [UIEvent.modelCall pr model, UIEvent.modelError])
        | Except.ok t =>
          let p := pyStrip t
          ({ passage := p, cache := (level, model, p) :: s.cache, log := s.log },
            [UIEvent.modelCall pr model])
  | Action.feedback input level model resp today =>
    if s.passage = "" then (s, [])
    else if pyStrip input = "" then (s, [UIEvent.warning])
    else
      match resp with
      | Except.error _ =>
        (s, [UIEvent.modelCall (fbPrompt input) model, UIEvent.modelError])
      | Except.ok t =>
        let fb := get_feedback_parse (pyStrip t)
        match getField fb "スコア", getField fb "よかった点", getField fb "改善点" with
        | some sc, some _, some _ =>
          ({ s with log := s.log ++ [⟨isoString today, level, model, input, sc⟩] },
            [UIEvent.modelCall (fbPrompt input) model])
        | _, _, _ => (s, [UIEvent.modelCall (fbPrompt input) model, UIEvent.keyError])

/-! ### Helper lemmas: digits and integers -/

theorem digitVal_digitChar {k : Nat} (h : k < 10) : digitVal (digitChar k) = k := by
  interval_cases k <;> rfl

theorem isDigit_digitChar {k : Nat} (h : k < 10) : (digitChar k).isDigit = true := by
  interval_cases k <;> rfl

theorem digitsVal_concat (l : List Char) (c : Char) :
    digitsVal (l ++ [c]) = digitsVal l * 10 + digitVal c := by
  simp [digitsVal, List.foldl_append]

theorem natDigitsFuel_spec :
    ∀ (f n : Nat), n < f →
      digitsVal (natDigitsFuel f n) = n ∧
        (natDigitsFuel f n).all Char.isDigit = true ∧ natDigitsFuel f n ≠ [] := by
  intro f
  induction f with
  | zero => intro n h; omega
  | succ f ih =>
    intro n h
    by_cases h10 : n < 10
    · refine ⟨?_, ?_, ?_⟩ <;> simp [natDigitsFuel, h10, digitsVal, digitVal_digitChar h10,
        isDigit_digitChar h10]
    · have hd : n / 10 < f := by omega
      obtain ⟨hv, ha, hn⟩ := ih (n / 10) hd
      refine ⟨?_, ?_, ?_⟩
      · rw [natDigitsFuel, if_neg h10, digitsVal_concat, hv,
          digitVal_digitChar (Nat.mod_lt _ (by omega))]
        omega
      · rw [natDigitsFuel, if_neg h10]
        simp only [List.all_append, ha, Bool.true_and, List.all_cons, List.all_nil,
          Bool.and_true]
        exact isDigit_digitChar (Nat.mod_lt _ (by omega))
      · rw [natDigitsFuel, if_neg h10]
        simp

theorem natDigits_spec (n : Nat) :
    digitsVal (natDigits n) = n ∧ (natDigits n).all Char.isDigit = true ∧
      natDigits n ≠ [] :=
  natDigitsFuel_spec (n + 1) n (Nat.lt_succ_self n)

theorem natDigits_head_isDigit (n : Nat) :
    ∀ c, (natDigits n).head? = some c → c.isDigit = true := by
  obtain ⟨-, ha, hn⟩ := natDigits_spec n
  intro c hc
  cases hnd : natDigits n with
  | nil => exact absurd hnd hn
  | cons d t =>
    rw [hnd] at hc ha
    simp only [List.head?_cons, Option.some.injEq] at hc
    simp only [List.all_cons, Bool.and_eq_true] at ha
    exact hc ▸ ha.1

/-! ### Helper lemmas: ISO dates -/

theorem isIso8601_isoChars (d : PyDate) : isIso8601 (isoChars d) = true := by
  obtain ⟨y, m, dd⟩ := d
  have h10 : ∀ x : Nat, x % 10 < 10 := fun x => Nat.mod_lt _ (by omega)
  simp [isoChars, pad4, pad2, isIso8601, isDigit_digitChar (h10 _)]

/-! ### Helper lemmas: CSV cells -/

theorem comma_ne_dquote : ¬ (',' = dquote) := by decide

theorem head_comma_ne_dquote (l : List Char) : (',' :: l).head? ≠ some dquote := by
  simp only [List.head?_cons, ne_eq, Option.some.injEq]
  exact comma_ne_dquote

theorem parseQuotedBody_escape :
    ∀ (s rest : List Char), rest.head? ≠ some dquote →
      parseQuotedBody (escapeQuotes s ++ dquote :: rest) = some (s, rest) := by
  intro s
  induction s with
  | nil =>
    intro rest h
    cases rest with
    | nil => rfl
    | cons q t2 =>
      have hq : ¬ q = dquote := by
        intro he
        exact h (by rw [he]; rfl)
      rw [escapeQuotes, List.nil_append, parseQuotedBody.eq_def]
      simp [hq]
  | cons c t ih =>
    intro rest h
    by_cases hc : c = dquote
    · subst hc
      rw [escapeQuotes, if_pos rfl, List.cons_append, List.cons_append,
        parseQuotedBody.eq_def]
      simp [ih rest h]
    · rw [escapeQuotes, if_neg hc, List.cons_append, parseQuotedBody.eq_def]
      simp [hc, ih rest h]

theorem span_no_comma (l : List Char) (h : ∀ c ∈ l, ¬ c = ',') :
    l.takeWhile notComma = l ∧ l.dropWhile notComma = [] := by
  induction l with
  | nil => exact ⟨rfl, rfl⟩
  | cons c t ih =>
    have hc : notComma c = true := by
      simp [notComma, h c (List.mem_cons_self c t)]
    have ht := ih fun x hx => h x (List.mem_cons_of_mem c hx)
    simp [List.takeWhile_cons, List.dropWhile_cons, hc, ht.1, ht.2]

theorem span_until_comma (l rest : List Char) (h : ∀ c ∈ l, ¬ c = ',') :
    (l ++ ',' :: rest).takeWhile notComma = l ∧
      (l ++ ',' :: rest).dropWhile notComma = ',' :: rest := by
  induction l with
  | nil =>
    have : notComma ',' = false := by simp [notComma]
    simp [List.takeWhile_cons, List.dropWhile_cons, this]
  | cons c t ih =>
    have hc : notComma c = true := by
      simp [notComma, h c (List.mem_cons_self c t)]
    have ht := ih fun x hx => h x (List.mem_cons_of_mem c hx)
    simp [List.takeWhile_cons, List.dropWhile_cons, hc, ht.1, ht.2]

theorem no_needsQuote (s : List Char) (h : s.any needsQuote = false) :
    (∀ c ∈ s, ¬ c = ',') ∧ ∀ c ∈ s, ¬ c = dquote := by
  rw [List.any_eq_false] at h
  constructor <;> intro c hc heq <;> have := h c hc <;> rw [heq] at this <;>
    simp [needsQuote] at this

theorem parseCellsFuel_encode :
    ∀ (cells : List (List Char)) (f : Nat), cells ≠ [] →
      (encodeLine cells).length < f → parseCellsFuel f (encodeLine cells) = some cells := by
  intro cells
  induction cells with
  | nil => intro f h; exact absurd rfl h
  | cons c cs ih =>
    intro f _ hlen
    obtain ⟨f', rfl⟩ : ∃ f', f = f' + 1 := ⟨f - 1, by omega⟩
    cases cs with
    | nil =>
      by_cases hq : c.any needsQuote
      · have hbody := parseQuotedBody_escape c [] (by simp)
        simp only [encodeLine, encodeCell, if_pos hq] at hlen ⊢
        rw [parseCellsFuel.eq_def]
        simp only [List.append_nil] at hbody ⊢
        simp [hbody]
      · obtain ⟨hcomma, hdq⟩ := no_needsQuote c (Bool.eq_false_iff.mpr hq)
        simp only [encodeLine, encodeCell, if_neg hq] at hlen ⊢
        cases c with
        | nil => rfl
        | cons ch t =>
          have hch : ¬ ch = dquote := hdq ch (List.mem_cons_self ch t)
          obtain ⟨htake, hdrop⟩ := span_no_comma (ch :: t) hcomma
          rw [parseCellsFuel.eq_def]
          simp [hch, htake, hdrop]
    | cons c2 cs2 =>
      have htl : (encodeLine (c2 :: cs2)).length < f' := by
        simp only [encodeLine, List.length_append, List.length_cons] at hlen ⊢
        omega
      have hrec := ih f' (by simp) htl
      by_cases hq : c.any needsQuote
      · have hbody :=
          parseQuotedBody_escape c (',' :: encodeLine (c2 :: cs2))
            (head_comma_ne_dquote _)
        simp only [encodeLine, encodeCell, if_pos hq, List.cons_append, List.append_assoc,
          List.singleton_append]
        rw [parseCellsFuel.eq_def]
        simp [hbody, hrec]
      · obtain ⟨hcomma, hdq⟩ := no_needsQuote c (Bool.eq_false_iff.mpr hq)
        simp only [encodeLine, encodeCell, if_neg hq]
        cases c with
        | nil =>
          have hcm : notComma ',' = false := by simp [notComma]
          rw [List.nil_append, parseCellsFuel.eq_def]
          simp [comma_ne_dquote, List.takeWhile_cons, List.dropWhile_cons, hcm, hrec]
        | cons ch t =>
          have hch : ¬ ch = dquote := hdq ch (List.mem_cons_self ch t)
          obtain ⟨htake, hdrop⟩ :=
            span_until_comma (ch :: t) (encodeLine (c2 :: cs2)) hcomma
          simp only [List.cons_append] at htake hdrop
          rw [List.cons_append, parseCellsFuel.eq_def]
          simp [hch, htake, hdrop, hrec]

theorem parseCells_encodeLine (cells : List (List Char)) (h : cells ≠ []) :
    parseCells (encodeLine cells) = some cells :=
  parseCellsFuel_encode cells _ h (Nat.lt_succ_self _)

theorem parseCells_encodeRecordLine (r : FeedbackRecord) :
    parseCells (encodeRecordLine r) = some (recCells r) :=
  parseCells_encodeLine (recCells r) (by simp [recCells])

/-! ### Helper lemmas: the reader's cell conversion -/

theorem dropWhile_spaceTab_eq_self (l : List Char) (h : ∀ c ∈ l, isSpaceTab c = false) :
    l.dropWhile isSpaceTab = l := by
  cases l with
  | nil => rfl
  | cons c t =>
    rw [List.dropWhile_cons, h c (List.mem_cons_self c t)]
    rfl

theorem trimSpaces_eq_self (l : List Char) (h : ∀ c ∈ l, isSpaceTab c = false) :
    trimSpaces l = l := by
  rw [trimSpaces, dropWhile_spaceTab_eq_self l h,
    dropWhile_spaceTab_eq_self l.reverse (fun c hc => h c (List.mem_reverse.mp hc)),
    List.reverse_reverse]

theorem digitChar_not_space {k : Nat} (h : k < 10) : isSpaceTab (digitChar k) = false := by
  interval_cases k <;> rfl

theorem digitChar_not_sign {k : Nat} (h : k < 10) :
    ¬(digitChar k = '-' ∨ digitChar k = '+') := by
  interval_cases k <;> decide

theorem not_space_of_isDigit {c : Char} (h : c.isDigit = true) : isSpaceTab c = false := by
  by_cases h1 : c = ' '
  · subst h1; exact absurd h (by decide)
  by_cases h2 : c = Char.ofNat 9
  · subst h2; exact absurd h (by decide)
  simp [isSpaceTab, h1, h2]

theorem not_sign_of_isDigit {c : Char} (h : c.isDigit = true) :
    ¬(c = '-' ∨ c = '+') := by
  rintro (rfl | rfl) <;> exact absurd h (by decide)

theorem intChars_no_space (i : Int) : ∀ c ∈ intChars i, isSpaceTab c = false := by
  intro c hc
  obtain ⟨-, ha, -⟩ := natDigits_spec i.natAbs
  rw [intChars] at hc
  have hdig : c ∈ natDigits i.natAbs → isSpaceTab c = false := fun hm =>
    not_space_of_isDigit (List.all_eq_true.mp ha c hm)
  by_cases hneg : i < 0
  · rw [if_pos hneg] at hc
    rcases List.mem_cons.mp hc with rfl | hm
    · rfl
    · exact hdig hm
  · rw [if_neg hneg] at hc
    exact hdig hc

theorem trimSpaces_intChars (i : Int) : trimSpaces (intChars i) = intChars i :=
  trimSpaces_eq_self _ (intChars_no_space i)

theorem isIntCell_intChars (i : Int) : isIntCell (intChars i) = true := by
  obtain ⟨-, ha, hn⟩ := natDigits_spec i.natAbs
  simp only [isIntCell, trimSpaces_intChars]
  by_cases hneg : i < 0
  · simp only [intChars, if_pos hneg]
    simp [hn, ha]
  · simp only [intChars, if_neg hneg]
    cases hnd : natDigits i.natAbs with
    | nil => exact absurd hnd hn
    | cons d t =>
      have hd : d.isDigit = true := natDigits_head_isDigit i.natAbs d (by rw [hnd]; rfl)
      rw [hnd] at ha
      simp [not_sign_of_isDigit hd, ha]

theorem pdIntVal_intChars (i : Int) : pdIntVal (intChars i) = i := by
  obtain ⟨hv, -, hn⟩ := natDigits_spec i.natAbs
  simp only [pdIntVal, trimSpaces_intChars]
  by_cases hneg : i < 0
  · simp only [intChars, if_pos hneg]
    simp only [reduceIte, hv]
    omega
  · simp only [intChars, if_neg hneg]
    cases hnd : natDigits i.natAbs with
    | nil => exact absurd hnd hn
    | cons d t =>
      have hd : d.isDigit = true := natDigits_head_isDigit i.natAbs d (by rw [hnd]; rfl)
      have h1 : ¬ d = '-' := fun h => not_sign_of_isDigit hd (Or.inl h)
      have h2 : ¬ d = '+' := fun h => not_sign_of_isDigit hd (Or.inr h)
      simp only [h1, h2, ite_false, ← hnd, hv]
      omega

theorem sentinels_not_int : ∀ l ∈ naSentinels, isIntCell l = false := by decide

theorem sentinels_length_ne_ten : ∀ l ∈ naSentinels, ¬ l.length = 10 := by decide

theorem intChars_not_sentinel (i : Int) : intChars i ∉ naSentinels := fun hmem => by
  have h := sentinels_not_int _ hmem
  rw [isIntCell_intChars] at h
  exact absurd h (by decide)

theorem isoChars_expand (d : PyDate) :
    isoChars d = [digitChar (d.year / 1000 % 10), digitChar (d.year / 100 % 10),
      digitChar (d.year / 10 % 10), digitChar (d.year % 10), '-',
      digitChar (d.month / 10 % 10), digitChar (d.month % 10), '-',
      digitChar (d.day / 10 % 10), digitChar (d.day % 10)] := by
  simp [isoChars, pad4, pad2]

theorem isoChars_length (d : PyDate) : (isoChars d).length = 10 := by
  rw [isoChars_expand]
  rfl

theorem isoChars_not_sentinel (d : PyDate) : isoChars d ∉ naSentinels := fun hmem =>
  sentinels_length_ne_ten _ hmem (isoChars_length d)

theorem isoChars_no_space (d : PyDate) : ∀ c ∈ isoChars d, isSpaceTab c = false := by
  have h10 : ∀ x : Nat, x % 10 < 10 := fun x => Nat.mod_lt _ (by omega)
  intro c hc
  rw [isoChars_expand] at hc
  simp only [List.mem_cons, List.not_mem_nil, or_false] at hc
  rcases hc with rfl | rfl | rfl | rfl | rfl | rfl | rfl | rfl | rfl | rfl <;>
    first
      | exact digitChar_not_space (h10 _)
      | rfl

theorem trimSpaces_isoChars (d : PyDate) : trimSpaces (isoChars d) = isoChars d :=
  trimSpaces_eq_self _ (isoChars_no_space d)

theorem isIntCell_isoChars (d : PyDate) : isIntCell (isoChars d) = false := by
  simp only [isIntCell]
  rw [trimSpaces_isoChars, isoChars_expand]
  dsimp only
  rw [if_neg (digitChar_not_sign (Nat.mod_lt _ (by omega)))]
  simp [List.all_cons]

theorem isFloatCell_isoChars (d : PyDate) : isFloatCell (isoChars d) = false := by
  have h10 : ∀ x : Nat, x % 10 < 10 := fun x => Nat.mod_lt _ (by omega)
  have hbody : isFloatBody (isoChars d) = false := by
    simp only [isFloatBody]
    rw [isoChars_expand]
    simp only [List.takeWhile_cons, List.dropWhile_cons, isDigit_digitChar (h10 _)]
    simp [isExpPart]
  have hlen3 : ¬ ((isoChars d).map Char.toLower = "inf".data) := by
    intro he
    have := congrArg List.length he
    rw [List.length_map, isoChars_length] at this
    exact absurd this (by decide)
  have hlen8 : ¬ ((isoChars d).map Char.toLower = "infinity".data) := by
    intro he
    have := congrArg List.length he
    rw [List.length_map, isoChars_length] at this
    exact absurd this (by decide)
  simp only [isFloatCell]
  rw [trimSpaces_isoChars, isoChars_expand]
  dsimp only
  rw [if_neg (digitChar_not_sign (Nat.mod_lt _ (by omega)))]
  rw [← isoChars_expand, hbody]
  simp [hlen3, hlen8]

theorem boolWords_length : ∀ l ∈ ["True".data, "TRUE".data, "true".data, "False".data,
    "FALSE".data, "false".data], ¬ l.length = 10 := by decide

theorem isBoolCell_isoChars (d : PyDate) : isBoolCell (isoChars d) = false := by
  simp only [isBoolCell, trimSpaces_isoChars, decide_eq_false_iff_not]
  exact fun hmem => boolWords_length _ hmem (isoChars_length d)

theorem convertsCell_isoChars (d : PyDate) : convertsCell (isoChars d) = false := by
  simp [convertsCell, isIntCell_isoChars, isFloatCell_isoChars, isBoolCell_isoChars]

theorem toCellValues_str_of_mem (col : List (List Char)) (x : List Char) (hx : x ∈ col)
    (h1 : x ∉ naSentinels) (h2 : convertsCell x = false) :
    toCellValues col =
      col.map (fun cs => if cs ∈ naSentinels then PdCell.nan else PdCell.str ⟨cs⟩) := by
  have hsplit : isIntCell x = false ∧ isFloatCell x = false ∧ isBoolCell x = false := by
    have h := h2
    simp only [convertsCell, Bool.or_eq_false_iff] at h
    exact ⟨h.1.1, h.1.2, h.2⟩
  have c1f : (col.all fun cs => !decide (cs ∈ naSentinels) && isIntCell cs) = false := by
    cases hall : col.all fun cs => !decide (cs ∈ naSentinels) && isIntCell cs
    · rfl
    · have := List.all_eq_true.mp hall x hx
      simp [hsplit.1] at this
  have c2f : (col.all fun cs => decide (cs ∈ naSentinels) || isBoolCell cs) = false := by
    cases hall : col.all fun cs => decide (cs ∈ naSentinels) || isBoolCell cs
    · rfl
    · have := List.all_eq_true.mp hall x hx
      simp [h1, hsplit.2.2] at this
  have c3f : (col.all fun cs =>
      decide (cs ∈ naSentinels) || isIntCell cs || isFloatCell cs) = false := by
    cases hall : col.all fun cs => decide (cs ∈ naSentinels) || isIntCell cs || isFloatCell cs
    · rfl
    · have := List.all_eq_true.mp hall x hx
      simp [h1, hsplit.1, hsplit.2.1] at this
  simp only [toCellValues]
  rw [c1f, c2f, c3f]
  simp

theorem toCellValues_int_all (col : List (List Char))
    (h1 : ∀ x ∈ col, x ∉ naSentinels ∧ isIntCell x = true)
    (h2 : ∀ x ∈ col, -(2 ^ 63) ≤ pdIntVal x ∧ pdIntVal x < 2 ^ 63) :
    toCellValues col = col.map (fun cs => PdCell.int (pdIntVal cs)) := by
  have c1 : (col.all fun cs => !decide (cs ∈ naSentinels) && isIntCell cs) = true :=
    List.all_eq_true.mpr fun x hx => by simp [(h1 x hx).1, (h1 x hx).2]
  have c2 : (col.all fun cs =>
      decide (-(2 ^ 63) ≤ pdIntVal cs) && decide (pdIntVal cs < 2 ^ 63)) = true :=
    List.all_eq_true.mpr fun x hx => by
      have h := h2 x hx
      simp only [Bool.and_eq_true, decide_eq_true_eq]
      omega
  simp only [toCellValues]
  rw [c1, c2]
  simp

theorem tokenizeLines_encodeRecordLine (ps : List FeedbackRecord) :
    tokenizeLines (ps.map encodeRecordLine) = some (ps.map recCells) := by
  induction ps with
  | nil => rfl
  | cons p t ih => simp [tokenizeLines, parseCells_encodeRecordLine, ih]

theorem readCells_appendStore (prev : List FeedbackRecord) (r : FeedbackRecord) :
    readCells (appendStore (mkFile prev) r) = some ((prev ++ [r]).map recCells) := by
  have hdrop : (appendStore (mkFile prev) r).drop 1 =
      (prev ++ [r]).map encodeRecordLine := by
    cases prev with
    | nil => simp [mkFile, appendStore]
    | cons p t => simp [mkFile, appendStore]
  have hlen : ((prev ++ [r]).map recCells).all (fun row => row.length = 5) = true :=
    List.all_eq_true.mpr fun row hrow => by
      obtain ⟨p, -, rfl⟩ := List.mem_map.mp hrow
      rfl
  simp only [readCells, hdrop, tokenizeLines_encodeRecordLine, hlen]
  rfl

theorem zip5_map {α β : Type} (f0 f1 f2 f3 f4 : α → β) (l : List α) :
    zip5 (l.map f0) (l.map f1) (l.map f2) (l.map f3) (l.map f4) =
      l.map (fun x => [f0 x, f1 x, f2 x, f3 x, f4 x]) := by
  induction l with
  | nil => rfl
  | cons a t ih => simp [zip5, ih]

theorem getLast?_map_concat {α β : Type} (f : α → β) (l : List α) (x : α) :
    ((l ++ [x]).map f).getLast? = some (f x) := by
  simp

/-! ### The claims -/

/-- C1 counterexample: the claim's universal field-for-field round-trip is
false of the code.  Appending the record with reflection text `"NA"` (a
legitimate, non-empty-after-strip user input) and loading yields a last
row whose reflection cell is NaN — `pd.read_csv`'s default NA-sentinel
conversion — not the string `"NA"`. -/
theorem c1_na_counterexample :
    loadStore (appendStore [] ⟨⟨2026, 10, 12⟩, "初級", "gemini-2.5-pro", "NA", 80⟩) =
      some [[PdCell.str "2026-10-12", PdCell.str "初級", PdCell.str "gemini-2.5-pro",
        PdCell.nan, PdCell.int 80]] ∧
    [PdCell.str "2026-10-12", PdCell.str "初級", PdCell.str "gemini-2.5-pro",
        PdCell.nan, PdCell.int 80] ≠
      [PdCell.str (isoString ⟨2026, 10, 12⟩), PdCell.str "初級",
        PdCell.str "gemini-2.5-pro", PdCell.str "NA", PdCell.int 80] :=
  ⟨rfl, by decide⟩

/-- C1 (amended): appending a FeedbackRecord to the log store and loading
the log yields a sequence whose last element equals the appended record
field-for-field — the date as its ISO 8601 calendar-date serialization —
provided the reader returns the record's cells untouched: the level,
model and reflection-text cells are plain (not pandas NA sentinels and
not integer/float/boolean shaped) and every logged score fits int64.  The
file may hold any previously logged records; the date bounds are the
invariants of Python's `datetime.date` constructor. -/
theorem c1_append_load_last (prev : List FeedbackRecord) (r : FeedbackRecord)
    (_hdate : 1 ≤ r.date.year ∧ r.date.year ≤ 9999 ∧ 1 ≤ r.date.month ∧
      r.date.month ≤ 12 ∧ 1 ≤ r.date.day ∧ r.date.day ≤ 31)
    (hscore : ∀ p ∈ prev ++ [r], -(2 ^ 63) ≤ p.score ∧ p.score < 2 ^ 63)
    (hl : plainCell r.level) (hm : plainCell r.model) (ht : plainCell r.text) :
    ∃ rows, loadStore (appendStore (mkFile prev) r) = some rows ∧
      rows.getLast? = some [PdCell.str (isoString r.date), PdCell.str r.level,
        PdCell.str r.model, PdCell.str r.text, PdCell.int r.score] ∧
      isIso8601 (isoChars r.date) = true := by
  have hread := readCells_appendStore prev r
  have hmem : r ∈ prev ++ [r] := List.mem_append_right _ (List.mem_singleton.mpr rfl)
  have hc0 : toCellValues (colN 0 ((prev ++ [r]).map recCells)) =
      (prev ++ [r]).map (fun p =>
        if isoChars p.date ∈ naSentinels then PdCell.nan
        else PdCell.str ⟨isoChars p.date⟩) := by
    have e : colN 0 ((prev ++ [r]).map recCells) =
        (prev ++ [r]).map (fun p => isoChars p.date) := by
      simp only [colN, List.map_map]
      rfl
    rw [e, toCellValues_str_of_mem _ (isoChars r.date)
      (List.mem_map_of_mem (fun p => isoChars p.date) hmem)
      (isoChars_not_sentinel _) (convertsCell_isoChars _), List.map_map]
    rfl
  have hc1 : toCellValues (colN 1 ((prev ++ [r]).map recCells)) =
      (prev ++ [r]).map (fun p =>
        if p.level.data ∈ naSentinels then PdCell.nan else PdCell.str ⟨p.level.data⟩) := by
    have e : colN 1 ((prev ++ [r]).map recCells) =
        (prev ++ [r]).map (fun p => p.level.data) := by
      simp only [colN, List.map_map]
      rfl
    rw [e, toCellValues_str_of_mem _ r.level.data
      (List.mem_map_of_mem (fun p => p.level.data) hmem) hl.1 hl.2, List.map_map]
    rfl
  have hc2 : toCellValues (colN 2 ((prev ++ [r]).map recCells)) =
      (prev ++ [r]).map (fun p =>
        if p.model.data ∈ naSentinels then PdCell.nan else PdCell.str ⟨p.model.data⟩) := by
    have e : colN 2 ((prev ++ [r]).map recCells) =
        (prev ++ [r]).map (fun p => p.model.data) := by
      simp only [colN, List.map_map]
      rfl
    rw [e, toCellValues_str_of_mem _ r.model.data
      (List.mem_map_of_mem (fun p => p.model.data) hmem) hm.1 hm.2, List.map_map]
    rfl
  have hc3 : toCellValues (colN 3 ((prev ++ [r]).map recCells)) =
      (prev ++ [r]).map (fun p =>
        if p.text.data ∈ naSentinels then PdCell.nan else PdCell.str ⟨p.text.data⟩) := by
    have e : colN 3 ((prev ++ [r]).map recCells) =
        (prev ++ [r]).map (fun p => p.text.data) := by
      simp only [colN, List.map_map]
      rfl
    rw [e, toCellValues_str_of_mem _ r.text.data
      (List.mem_map_of_mem (fun p => p.text.data) hmem) ht.1 ht.2, List.map_map]
    rfl
  have hc4 : toCellValues (colN 4 ((prev ++ [r]).map recCells)) =
      (prev ++ [r]).map (fun p => PdCell.int (pdIntVal (intChars p.score))) := by
    have e : colN 4 ((prev ++ [r]).map recCells) =
        (prev ++ [r]).map (fun p => intChars p.score) := by
      simp only [colN, List.map_map]
      rfl
    rw [e, toCellValues_int_all, List.map_map]
    · rfl
    · intro x hx
      obtain ⟨p, -, rfl⟩ := List.mem_map.mp hx
      exact ⟨intChars_not_sentinel _, isIntCell_intChars _⟩
    · intro x hx
      obtain ⟨p, hp, rfl⟩ := List.mem_map.mp hx
      rw [pdIntVal_intChars]
      exact hscore p hp
  have hload : loadStore (appendStore (mkFile prev) r) =
      some ((prev ++ [r]).map (fun p =>
        [if isoChars p.date ∈ naSentinels then PdCell.nan
           else PdCell.str ⟨isoChars p.date⟩,
         if p.level.data ∈ naSentinels then PdCell.nan else PdCell.str ⟨p.level.data⟩,
         if p.model.data ∈ naSentinels then PdCell.nan else PdCell.str ⟨p.model.data⟩,
         if p.text.data ∈ naSentinels then PdCell.nan else PdCell.str ⟨p.text.data⟩,
         PdCell.int (pdIntVal (intChars p.score))])) := by
    simp only [loadStore, hread]
    rw [hc0, hc1, hc2, hc3, hc4, zip5_map]
  refine ⟨_, hload, ?_, isIso8601_isoChars r.date⟩
  rw [getLast?_map_concat]
  simp only [if_neg (isoChars_not_sentinel r.date), if_neg hl.1, if_neg hm.1,
    if_neg ht.1, pdIntVal_intChars]
  rfl

/-- Witness for C1 at a concrete plain record, an empty (absent) file. -/
theorem c1_append_load_last_witness :
    ∃ rows, loadStore (appendStore (mkFile [])
        ⟨⟨2026, 10, 12⟩, "初級", "gemini-2.5-pro", "主人公に共感した", 80⟩) = some rows ∧
      rows.getLast? = some [PdCell.str (isoString ⟨2026, 10, 12⟩), PdCell.str "初級",
        PdCell.str "gemini-2.5-pro", PdCell.str "主人公に共感した", PdCell.int 80] ∧
      isIso8601 (isoChars ⟨2026, 10, 12⟩) = true :=
  c1_append_load_last [] _ (by decide) (by decide)
    ⟨by decide, by decide⟩ ⟨by decide, by decide⟩ ⟨by decide, by decide⟩

/-- C2: on the well-formed structured response
`{"よかった点":"A","改善点":"B","スコア":80}` the parsing step of
`get_feedback` returns exactly that three-field record, each field passed
through verbatim; a second instance with an out-of-range score shows that
no range validation is applied on the success path. -/
theorem c2_parser_wellformed :
    get_feedback_parse "\x7b\"よかった点\":\"A\",\"改善点\":\"B\",\"スコア\":80\x7d" =
      Json.obj [("よかった点", Json.str "A"), ("改善点", Json.str "B"),
        ("スコア", Json.num 80)] ∧
    getField (get_feedback_parse "\x7b\"よかった点\":\"A\",\"改善点\":\"B\",\"スコア\":80\x7d")
      "よかった点" = some (Json.str "A") ∧
    getField (get_feedback_parse "\x7b\"よかった点\":\"A\",\"改善点\":\"B\",\"スコア\":80\x7d")
      "改善点" = some (Json.str "B") ∧
    getField (get_feedback_parse "\x7b\"よかった点\":\"A\",\"改善点\":\"B\",\"スコア\":80\x7d")
      "スコア" = some (Json.num 80) ∧
    get_feedback_parse "\x7b\"よかった点\":\"A\",\"改善点\":\"B\",\"スコア\":-5\x7d" =
      Json.obj [("よかった点", Json.str "A"), ("改善点", Json.str "B"),
        ("スコア", Json.num (-5))] :=
  ⟨rfl, rfl, rfl, rfl, rfl⟩

/-- C3: whenever the model response text is not parseable as JSON, the
parsing step of `get_feedback` returns exactly the fixed fallback record
`{"よかった点": "解析失敗", "改善点": "形式を確認", "スコア": 0}` — no
partial or field-by-field recovery exists on the failure path. -/
theorem c3_parser_fallback (resp : String) (h : parseJson resp = none) :
    get_feedback_parse resp =
      Json.obj [("よかった点", Json.str "解析失敗"), ("改善点", Json.str "形式を確認"),
        ("スコア", Json.num 0)] := by
  simp [get_feedback_parse, h, fallbackJson]

/-- Witness for C3 at a concrete prose response. -/
theorem c3_parser_fallback_witness :
    parseJson "すみません、JSON 形式では出力できません。" = none ∧
    get_feedback_parse "すみません、JSON 形式では出力できません。" =
      Json.obj [("よかった点", Json.str "解析失敗"), ("改善点", Json.str "形式を確認"),
        ("スコア", Json.num 0)] :=
  ⟨rfl, c3_parser_fallback _ rfl⟩

/-- C4: every level key of the fixed enumerated set maps to a non-empty,
level-specific (pairwise distinct) instruction string, and every other key
fails the lookup (`KeyError`, the spec's `InvalidLevel`). -/
theorem c4_level_prompts :
    (∀ level, level = "初級" ∨ level = "中級" ∨ level = "上級" →
      ∃ p, LEVEL_PROMPT level = some p ∧ p ≠ "") ∧
    (∀ level, ¬(level = "初級" ∨ level = "中級" ∨ level = "上級") →
      LEVEL_PROMPT level = none) ∧
    LEVEL_PROMPT "初級" ≠ LEVEL_PROMPT "中級" ∧
    LEVEL_PROMPT "初級" ≠ LEVEL_PROMPT "上級" ∧
    LEVEL_PROMPT "中級" ≠ LEVEL_PROMPT "上級" := by
  refine ⟨?_, ?_, by decide, by decide, by decide⟩
  · intro level h
    rcases h with h | h | h <;> subst h <;> exact ⟨_, rfl, by decide⟩
  · intro level h
    simp only [not_or] at h
    obtain ⟨n1, n2, n3⟩ := h
    simp [LEVEL_PROMPT, n1, n2, n3]

/-- Witness for C4: a valid level produces a prompt, an unknown one fails. -/
theorem c4_level_prompts_witness :
    (∃ p, LEVEL_PROMPT "初級" = some p ∧ p ≠ "") ∧ LEVEL_PROMPT "英語" = none :=
  ⟨c4_level_prompts.1 "初級" (Or.inl rfl), c4_level_prompts.2.1 "英語" (by decide)⟩

/-- C5: for every reflection text, the feedback prompt built from the
template contains that text verbatim as a contiguous substring. -/
theorem c5_prompt_contains_reflection (t : String) :
    ∃ pre post : List Char, (fbPrompt t).data = pre ++ t.data ++ post :=
  ⟨fbBefore.data, fbAfter.data, by
    simp [fbPrompt, String.data_append, List.append_assoc]⟩

/-- C6: a row is appended to the log only by a feedback action taken while
a non-empty passage is in session state with reflection text that is
non-empty after stripping; no other interaction changes the log. -/
theorem c6_append_guard (s : AppState) (a : Action)
    (h : (step s a).1.log.length ≠ s.log.length) :
    ∃ input level model resp today,
      a = Action.feedback input level model resp today ∧
        s.passage ≠ "" ∧ pyStrip input ≠ "" := by
  cases a with
  | generate level model resp =>
    exfalso
    apply h
    cases hlc : lookupCache s.cache level model with
    | some p => simp [step, hlc]
    | none =>
      cases hlp : LEVEL_PROMPT level with
      | none => simp [step, hlc, hlp]
      | some pr => cases resp <;> simp [step, hlc, hlp]
  | feedback input level model resp today =>
    by_cases hp : s.passage = ""
    · exact absurd (by simp [step, hp]) h
    by_cases hi : pyStrip input = ""
    · exact absurd (by simp [step, hp, hi]) h
    exact ⟨input, level, model, resp, today, rfl, hp, hi⟩

/-- Witness for C6: a concrete interaction that does append a row. -/
theorem c6_append_guard_witness :
    (step ⟨"物語", [], []⟩
        (Action.feedback "よい" "初級" "m" (Except.ok "x") ⟨2026, 10, 12⟩)).1.log.length ≠
      (AppState.mk "物語" [] []).log.length ∧
    ∃ input level model resp today,
      Action.feedback "よい" "初級" "m" (Except.ok "x") ⟨2026, 10, 12⟩ =
          Action.feedback input level model resp today ∧
        (AppState.mk "物語" [] []).passage ≠ "" ∧ pyStrip input ≠ "" :=
  ⟨by decide, c6_append_guard ⟨"物語", [], []⟩ _ (by decide)⟩

/-- C7: submitting feedback with reflection text that strips to empty
appends nothing, makes no model call, changes no state, and (whenever the
submission is possible at all, i.e. a passage exists) surfaces exactly the
validation warning. -/
theorem c7_empty_reflection (s : AppState) (input level model : String)
    (resp : Except Unit String) (today : PyDate) (h : pyStrip input = "") :
    (s.passage ≠ "" →
      step s (Action.feedback input level model resp today) = (s, [UIEvent.warning])) ∧
    (s.passage = "" →
      step s (Action.feedback input level model resp today) = (s, [])) := by
  constructor <;> intro hp <;> simp [step, hp, h]

/-- Witness for C7 at a whitespace-only submission. -/
theorem c7_empty_reflection_witness :
    pyStrip " \t " = "" ∧
    step ⟨"物語", [], []⟩ (Action.feedback " \t " "初級" "m" (Except.ok "x") ⟨2026, 10, 12⟩) =
      (⟨"物語", [], []⟩, [UIEvent.warning]) :=
  ⟨by decide, (c7_empty_reflection _ _ _ _ _ _ (by decide)).1 (by decide)⟩

/-- C8: when the single model call of an action fails, the failure
propagates (ModelUnavailable) after exactly one call — no retry — and the
state, in particular the session passage and every log row, is exactly the
prior state.  The generate case assumes a cache miss (a hit makes no call)
and a known level (an unknown one aborts before the call). -/
theorem c8_model_failure_frame :
    (∀ (s : AppState) (level model pr : String),
      lookupCache s.cache level model = none → LEVEL_PROMPT level = some pr →
        step s (Action.generate level model (Except.error ())) =
          (s, [UIEvent.modelCall pr model, UIEvent.modelError])) ∧
    (∀ (s : AppState) (input level model : String) (today : PyDate),
      s.passage ≠ "" → pyStrip input ≠ "" →
        step s (Action.feedback input level model (Except.error ()) today) =
          (s, [UIEvent.modelCall (fbPrompt input) model, UIEvent.modelError])) := by
  constructor
  · intro s level model pr hlc hlp
    simp [step, hlc, hlp]
  · intro s input level model today hp hi
    simp [step, hp, hi]

/-- Witness for C8: both failing actions at concrete states. -/
theorem c8_model_failure_frame_witness :
    step ⟨"物語", [], []⟩ (Action.generate "初級" "m" (Except.error ())) =
      (⟨"物語", [], []⟩,
        [UIEvent.modelCall "日本の小学高学年でも読める 5,000 字程度の物語を日本語で書いて。" "m",
          UIEvent.modelError]) ∧
    step ⟨"物語", [], []⟩ (Action.feedback "よい" "初級" "m" (Except.error ()) ⟨2026, 10, 12⟩) =
      (⟨"物語", [], []⟩, [UIEvent.modelCall (fbPrompt "よい") "m", UIEvent.modelError]) :=
  ⟨c8_model_failure_frame.1 _ "初級" "m" _ rfl rfl,
    c8_model_failure_frame.2 _ "よい" "初級" "m" _ (by decide) (by decide)⟩

/-- C9: after a passage generation for a (level, model) pair, a second
generation request for the identical pair returns the very same passage
and state with no model call at all — its outcome is independent of the
oracle response `resp2` — i.e. the cached result is reused. -/
theorem c9_cache_reuse (s : AppState) (level model pr t : String)
    (resp2 : Except Unit String) (hlp : LEVEL_PROMPT level = some pr)
    (hlc : lookupCache s.cache level model = none) :
    (step s (Action.generate level model (Except.ok t))).2 =
      [UIEvent.modelCall pr model] ∧
    step (step s (Action.generate level model (Except.ok t))).1
        (Action.generate level model resp2) =
      ((step s (Action.generate level model (Except.ok t))).1, []) ∧
    (step (step s (Action.generate level model (Except.ok t))).1
        (Action.generate level model resp2)).1.passage = pyStrip t := by
  have h1 : step s (Action.generate level model (Except.ok t)) =
      (⟨pyStrip t, (level, model, pyStrip t) :: s.cache, s.log⟩,
        [UIEvent.modelCall pr model]) := by
    simp [step, hlc, hlp]
  have h2 : lookupCache ((level, model, pyStrip t) :: s.cache) level model =
      some (pyStrip t) := by
    simp [lookupCache]
  rw [h1]
  simp [step, h2]

/-- Witness for C9 with a failing oracle on the second request, showing it
is never consulted. -/
theorem c9_cache_reuse_witness :
    (step ⟨"", [], []⟩ (Action.generate "初級" "m" (Except.ok " 物語 "))).2 =
      [UIEvent.modelCall "日本の小学高学年でも読める 5,000 字程度の物語を日本語で書いて。" "m"] ∧
    step (step ⟨"", [], []⟩ (Action.generate "初級" "m" (Except.ok " 物語 "))).1
        (Action.generate "初級" "m" (Except.error ())) =
      ((step ⟨"", [], []⟩ (Action.generate "初級" "m" (Except.ok " 物語 "))).1, []) ∧
    (step (step ⟨"", [], []⟩ (Action.generate "初級" "m" (Except.ok " 物語 "))).1
        (Action.generate "初級" "m" (Except.error ()))).1.passage = pyStrip " 物語 " :=
  c9_cache_reuse ⟨"", [], []⟩ "初級" "m" _ " 物語 " (Except.error ()) rfl rfl

/-- C10: the fallback substitution happens only on a JSON decoding
failure: any response that parses as JSON — here a bare number and an
object missing the expected keys — is returned by `get_feedback`'s parsing
step as-is, and the subsequent subscription of the three fields can then
fail (shown both directly on `getField` and on the feedback handler, which
raises before appending anything). -/
theorem c10_json_passthrough :
    (∀ (resp : String) (v : Json), parseJson resp = some v →
      get_feedback_parse resp = v) ∧
    parseJson "42" = some (Json.num 42) ∧
    getField (Json.num 42) "スコア" = none ∧
    parseJson "\x7b\"スコア\":1\x7d" = some (Json.obj [("スコア", Json.num 1)]) ∧
    getField (Json.obj [("スコア", Json.num 1)]) "よかった点" = none ∧
    step ⟨"物語", [], []⟩
        (Action.feedback "よい" "初級" "m" (Except.ok "42") ⟨2026, 10, 12⟩) =
      (⟨"物語", [], []⟩, [UIEvent.modelCall (fbPrompt "よい") "m", UIEvent.keyError]) := by
  refine ⟨?_, rfl, rfl, rfl, rfl, by rfl⟩
  intro resp v h
  simp [get_feedback_parse, h]

/-- Witness for C10's pass-through at a concrete JSON array response. -/
theorem c10_json_passthrough_witness :
    parseJson "[1]" = some (Json.arr [Json.num 1]) ∧
    get_feedback_parse "[1]" = Json.arr [Json.num 1] :=
  ⟨rfl, c10_json_passthrough.1 "[1]" _ rfl⟩

end ReadingApp
